import Mathlib

/-!
Verification of the InfluxDB fullstack telemetry backend.

Shallow embedding of the backend source:
  - InfluxService.executeQuery (influx service): retry loop, row
    accumulation with truncation, error classification, connection flag.
  - TelemetryService: calculateAggregationWindow, getTelemetryData
    validation and query pipeline, processResultData (value transforms,
    coordinate merge buffer, track construction), getImeis with its
    fallback, getRecommendedTimeRange.

Modelling conventions: timestamps are milliseconds as Int (the code uses
Date.getTime()); numeric sample values are exact rationals (the code uses
JS numbers; all claims concern values where the two agree); JS
Math.round is round-half-toward-positive-infinity; parseFloat results
are Option values (none models NaN); the streamed result of a store
query is a plain list of rows supplied by an environment.
-/

namespace InfluxBackend

/-- JS Math.round: rounds half toward positive infinity. -/
def jsRound (q : ℚ) : ℤ := ⌊q + 1 / 2⌋

/-- Contiguous-sublist test on character lists. -/
def containsSub (needle : List Char) : List Char → Bool
  | [] => needle.isEmpty
  | c :: rest => needle.isPrefixOf (c :: rest) || containsSub needle rest

/-- JS String.prototype.includes: substring containment test. -/
def strIncludes (s sub : String) : Bool := containsSub sub.toList s.toList

lemma jsRound_intCast (n : ℤ) : jsRound (n : ℚ) = n := by
  unfold jsRound
  rw [Int.floor_int_add]
  norm_num

lemma jsRound_zero : jsRound 0 = 0 := by
  unfold jsRound
  norm_num

/- Stable insertion sort by a key, modelling JS Array.prototype.sort with
   a key-comparing callback. -/

def insertByKey {α β : Type} [LinearOrder β] (key : α → β) (a : α) : List α → List α
  | [] => [a]
  | b :: bs => if key a ≤ key b then a :: b :: bs else b :: insertByKey key a bs

def sortByKey {α β : Type} [LinearOrder β] (key : α → β) : List α → List α
  | [] => []
  | a :: as => insertByKey key a (sortByKey key as)

lemma perm_insertByKey {α β : Type} [LinearOrder β] (key : α → β) (a : α) (l : List α) :
    List.Perm (insertByKey key a l) (a :: l) := by
  induction l with
  | nil => simp [insertByKey]
  | cons b bs ih =>
    unfold insertByKey
    split
    · exact List.Perm.refl _
    · exact List.Perm.trans (List.Perm.cons b ih) (List.Perm.swap a b bs)

lemma perm_sortByKey {α β : Type} [LinearOrder β] (key : α → β) (l : List α) :
    List.Perm (sortByKey key l) l := by
  induction l with
  | nil => simp [sortByKey]
  | cons a as ih =>
    exact List.Perm.trans (perm_insertByKey key a (sortByKey key as)) (List.Perm.cons a ih)

lemma mem_sortByKey {α β : Type} [LinearOrder β] (key : α → β) (l : List α) (x : α) :
    x ∈ sortByKey key l ↔ x ∈ l :=
  (perm_sortByKey key l).mem_iff

lemma pairwise_insertByKey {α β : Type} [LinearOrder β] (key : α → β) (a : α) (l : List α)
    (h : l.Pairwise (fun u v => key u ≤ key v)) :
    (insertByKey key a l).Pairwise (fun u v => key u ≤ key v) := by
  induction l with
  | nil => simp [insertByKey]
  | cons b bs ih =>
    unfold insertByKey
    rcases List.pairwise_cons.mp h with ⟨hb, hbs⟩
    split
    · rename_i hab
      refine List.pairwise_cons.mpr ⟨?_, h⟩
      intro y hy
      rcases List.mem_cons.mp hy with rfl | hy
      · exact hab
      · exact le_trans hab (hb y hy)
    · rename_i hab
      refine List.pairwise_cons.mpr ⟨?_, ih hbs⟩
      intro y hy
      rcases List.mem_cons.mp ((perm_insertByKey key a bs).mem_iff.mp hy) with rfl | hy
      · exact le_of_lt (lt_of_not_le hab)
      · exact hb y hy

lemma pairwise_sortByKey {α β : Type} [LinearOrder β] (key : α → β) (l : List α) :
    (sortByKey key l).Pairwise (fun u v => key u ≤ key v) := by
  induction l with
  | nil => simp [sortByKey]
  | cons a as ih => exact pairwise_insertByKey key a (sortByKey key as) ih

/- JS Set-based deduplication keeping first occurrences, modelling
   Array.from(new Set(xs)) via the spread operator. -/

def jsSetDedup : List String → List String
  | [] => []
  | x :: xs => x :: jsSetDedup (xs.filter (fun y => !(y == x)))
termination_by l => l.length
decreasing_by
  simp only [List.length_cons]
  exact Nat.lt_succ_of_le (List.length_filter_le _ _)

lemma jsSetDedup_props : ∀ (n : Nat) (l : List String), l.length ≤ n →
    (jsSetDedup l).Nodup ∧ ∀ x, x ∈ jsSetDedup l ↔ x ∈ l := by
  intro n
  induction n with
  | zero =>
    intro l hl
    have : l = [] := List.length_eq_zero.mp (Nat.le_zero.mp hl)
    subst this
    simp [jsSetDedup]
  | succ n ih =>
    intro l hl
    cases l with
    | nil => simp [jsSetDedup]
    | cons x xs =>
      have hlen : (xs.filter (fun y => !(y == x))).length ≤ n := by
        have h1 := List.length_filter_le (fun y => !(y == x)) xs
        simp only [List.length_cons] at hl
        omega
      rcases ih _ hlen with ⟨hnodup, hmem⟩
      rw [jsSetDedup]
      constructor
      · refine List.nodup_cons.mpr ⟨?_, hnodup⟩
        intro hx
        rcases List.mem_filter.mp ((hmem x).mp hx) with ⟨_, hne⟩
        simp at hne
      · intro y
        simp only [List.mem_cons, hmem, List.mem_filter, Bool.not_eq_true', beq_eq_false_iff_ne,
          ne_eq]
        by_cases hy : y = x
        · simp [hy]
        · simp only [hy]
          tauto

lemma jsSetDedup_nodup (l : List String) : (jsSetDedup l).Nodup :=
  (jsSetDedup_props l.length l le_rfl).1

lemma mem_jsSetDedup (l : List String) (x : String) : x ∈ jsSetDedup l ↔ x ∈ l :=
  (jsSetDedup_props l.length l le_rfl).2 x

/-!
InfluxService.executeQuery. One loop iteration of the while-loop is one
attempt against the store. An attempt streams some rows and then either
completes (error = none) or throws an error with the given message
(error = some m). The loop pushes streamed rows into a single buffer
allocated once per call, breaking with a truncation warning when the
buffer length exceeds 150000; a completed (or truncation-broken)
iteration returns the buffer. A thrown error sets the connection flag to
false and is classified by substring tests on its message; timeout and
connection errors are retried while retryCount < maxRetries = 3, with a
sleep of 2000 * retryCount ms after incrementing retryCount; other
errors, and exhausted retries, raise terminal errors.
-/

/-- Pushes rows one by one into the buffer, stopping (with a truncation
flag) as soon as the buffer length exceeds the cap, as the row loop in
executeQuery does. -/
def pushRows {α : Type} (cap : Nat) : List α → List α → List α × Bool
  | buf, [] => (buf, false)
  | buf, r :: rs =>
    let buf2 := buf ++ [r]
    if cap < buf2.length then (buf2, true) else pushRows cap buf2 rs

structure Attempt (α : Type) where
  rows : List α
  error : Option String
deriving DecidableEq

inductive ExecOutcome (α : Type) where
  | ok (rows : List α)
  | err (msg : String)
deriving DecidableEq

/-- Number of returned rows of a successful outcome. -/
def ExecOutcome.rowCount {α : Type} : ExecOutcome α → Option Nat
  | .ok rows => some rows.length
  | .err _ => none

/-- Observable trace of one executeQuery call: its outcome, the sequence
of values assigned to the isConnected flag, the sleep delays performed
between attempts, and whether the truncation warning was logged. -/
structure ExecTrace (α : Type) where
  outcome : ExecOutcome α
  connEvents : List Bool
  delays : List Nat
  truncWarned : Bool
deriving DecidableEq

def executeQueryLoop {α : Type} :
    List (Attempt α) → Nat → List α → Bool → List Bool → List Nat → ExecTrace α
  | [], _, _, _, events, delays =>
    ⟨.err "model: attempt stream exhausted", events, delays, false⟩
  | a :: rest, retryCount, buffer, conn, events, delays =>
    let pr := pushRows 150000 buffer a.rows
    match a.error with
    | none =>
      ⟨.ok pr.1, if conn then events else events ++ [true], delays, pr.2⟩
    | some m =>
      if pr.2 then
        ⟨.ok pr.1, if conn then events else events ++ [true], delays, true⟩
      else
        let events2 := events ++ [false]
        if strIncludes m "timeout" then
          if retryCount < 3 then
            executeQueryLoop rest (retryCount + 1) pr.1 false events2
              (delays ++ [2000 * (retryCount + 1)])
          else
            ⟨.err "InfluxDB query timeout - попробуйте уменьшить временной диапазон или использовать агрегацию",
              events2, delays, false⟩
        else if strIncludes m "unauthorized" || strIncludes m "401" then
          ⟨.err "InfluxDB authentication failed - проверьте токен доступа", events2, delays, false⟩
        else if strIncludes m "not found" || strIncludes m "404" then
          ⟨.err "InfluxDB bucket или organization не найдены", events2, delays, false⟩
        else if strIncludes m "connection" || strIncludes m "ENOTFOUND" || strIncludes m "ECONNREFUSED" then
          if retryCount < 3 then
            executeQueryLoop rest (retryCount + 1) pr.1 false events2
              (delays ++ [2000 * (retryCount + 1)])
          else
            ⟨.err "InfluxDB connection failed - проверьте URL и сетевое соединение", events2, delays, false⟩
        else if strIncludes m "invalid query" || strIncludes m "syntax error" then
          ⟨.err ("InfluxDB query syntax error: " ++ m), events2, delays, false⟩
        else
          ⟨.err ("InfluxDB query failed: " ++ m), events2, delays, false⟩

/-- InfluxService.executeQuery, started with retryCount 0, a fresh empty
row buffer, and the current value of the isConnected flag. -/
def executeQuery {α : Type} (attempts : List (Attempt α)) (conn0 : Bool) : ExecTrace α :=
  executeQueryLoop attempts 0 [] conn0 [] []

/-- A message is retried exactly when the classification chain of
executeQuery reaches one of its two continue branches. -/
def isRetryableMsg (m : String) : Bool :=
  strIncludes m "timeout" ||
    (!(strIncludes m "unauthorized" || strIncludes m "401") &&
     !(strIncludes m "not found" || strIncludes m "404") &&
     (strIncludes m "connection" || strIncludes m "ENOTFOUND" || strIncludes m "ECONNREFUSED"))

lemma pushRows_spec {α : Type} (cap : Nat) :
    ∀ (rows buf : List α), buf.length ≤ cap →
      pushRows cap buf rows =
        (buf ++ rows.take (cap + 1 - buf.length), decide (cap < buf.length + rows.length)) := by
  intro rows
  induction rows with
  | nil =>
    intro buf h
    simp [pushRows, Nat.not_lt_of_le h]
  | cons r rs ih =>
    intro buf h
    rw [pushRows]
    by_cases hc : cap < (buf ++ [r]).length
    · rw [if_pos hc]
      simp only [List.length_append, List.length_cons, List.length_nil] at hc
      have hbl : buf.length = cap := by omega
      have h1 : cap + 1 - buf.length = 1 := by omega
      have h2 : decide (cap < buf.length + (r :: rs).length) = true := by
        simp only [List.length_cons]
        exact decide_eq_true (by omega)
      rw [h1, h2]
      simp
    · rw [if_neg hc]
      simp only [List.length_append, List.length_cons, List.length_nil] at hc
      have hble : (buf ++ [r]).length ≤ cap := by
        simp only [List.length_append, List.length_cons, List.length_nil]
        omega
      rw [ih (buf ++ [r]) hble]
      have h1 : cap + 1 - (buf ++ [r]).length = cap - buf.length := by
        simp only [List.length_append, List.length_cons, List.length_nil]
        omega
      have h2 : cap + 1 - buf.length = (cap - buf.length) + 1 := by omega
      rw [h1, h2, List.take_succ_cons]
      have e2 : (buf ++ [r]).length + rs.length = buf.length + (r :: rs).length := by
        simp only [List.length_append, List.length_cons, List.length_nil]
        omega
      rw [e2]
      simp

lemma pushRows_no_trunc {α : Type} (cap : Nat) (buf rows : List α)
    (h : buf.length + rows.length ≤ cap) :
    pushRows cap buf rows = (buf ++ rows, false) := by
  rw [pushRows_spec cap rows buf (by omega)]
  have h1 : rows.take (cap + 1 - buf.length) = rows :=
    List.take_of_length_le (by omega)
  have h2 : decide (cap < buf.length + rows.length) = false :=
    decide_eq_false (by omega)
  rw [h1, h2]

lemma pushRows_from_nil_big {α : Type} (l : List α) (h : 150000 < l.length) :
    pushRows 150000 ([] : List α) l = (l.take 150001, true) := by
  rw [pushRows_spec 150000 l [] (by simp)]
  have hd : decide (150000 < ([] : List α).length + l.length) = true :=
    decide_eq_true (by simpa using h)
  rw [hd]
  norm_num

lemma timeout_isRetryableMsg {m : String} (h : strIncludes m "timeout" = true) :
    isRetryableMsg m = true := by
  unfold isRetryableMsg
  rw [h, Bool.true_or]

lemma executeQueryLoop_success_step {α : Type} (a : Attempt α) (rest : List (Attempt α))
    (rc : Nat) (buffer : List α) (conn : Bool) (events : List Bool) (delays : List Nat)
    (he : a.error = none) :
    executeQueryLoop (a :: rest) rc buffer conn events delays =
      ⟨.ok (pushRows 150000 buffer a.rows).1, if conn then events else events ++ [true],
        delays, (pushRows 150000 buffer a.rows).2⟩ := by
  simp only [executeQueryLoop, he]

lemma executeQueryLoop_retry_step {α : Type} (a : Attempt α) (rest : List (Attempt α))
    (rc : Nat) (buffer : List α) (conn : Bool) (events : List Bool) (delays : List Nat)
    (m : String) (he : a.error = some m) (hm : isRetryableMsg m = true)
    (hlen : buffer.length + a.rows.length ≤ 150000) (hrc : rc < 3) :
    executeQueryLoop (a :: rest) rc buffer conn events delays =
      executeQueryLoop rest (rc + 1) (buffer ++ a.rows) false (events ++ [false])
        (delays ++ [2000 * (rc + 1)]) := by
  by_cases ht : strIncludes m "timeout" = true
  · simp [executeQueryLoop, he, pushRows_no_trunc 150000 buffer a.rows hlen, ht, hrc]
  · have ht' : strIncludes m "timeout" = false := Bool.eq_false_iff.mpr ht
    have hm2 := hm
    unfold isRetryableMsg at hm2
    rw [ht', Bool.false_or, Bool.and_eq_true, Bool.and_eq_true] at hm2
    obtain ⟨⟨hA, hB⟩, hC⟩ := hm2
    rw [Bool.not_eq_true'] at hA hB
    rw [Bool.or_eq_false_iff] at hA hB
    obtain ⟨hA1, hA2⟩ := hA
    obtain ⟨hB1, hB2⟩ := hB
    rw [Bool.or_eq_true, Bool.or_eq_true] at hC
    rcases hC with (hc | hc) | hc <;>
      simp [executeQueryLoop, he, pushRows_no_trunc 150000 buffer a.rows hlen, ht', hA1,
        hA2, hB1, hB2, hc, hrc]

lemma executeQueryLoop_timeout_terminal {α : Type} (a : Attempt α) (rest : List (Attempt α))
    (rc : Nat) (buffer : List α) (conn : Bool) (events : List Bool) (delays : List Nat)
    (m : String) (he : a.error = some m) (ht : strIncludes m "timeout" = true)
    (hlen : buffer.length + a.rows.length ≤ 150000) (hrc : ¬ rc < 3) :
    executeQueryLoop (a :: rest) rc buffer conn events delays =
      ⟨.err "InfluxDB query timeout - попробуйте уменьшить временной диапазон или использовать агрегацию",
        events ++ [false], delays, false⟩ := by
  simp [executeQueryLoop, he, pushRows_no_trunc 150000 buffer a.rows hlen, ht, hrc]

/-- C2: when every attempt of an executeQuery call fails with a message
classified as a timeout, the call performs exactly three retries (four
attempts in total, consuming no further attempts), sleeping 2000 ms,
4000 ms and 6000 ms between attempts, every failed attempt assigns
false to the isConnected flag, and the call ends with the fixed terminal
timeout error message rather than the cause message of any attempt. -/
theorem c2_timeout_retry {α : Type} (a0 a1 a2 a3 : Attempt α) (rest : List (Attempt α))
    (conn0 : Bool) (m0 m1 m2 m3 : String)
    (he0 : a0.error = some m0) (ht0 : strIncludes m0 "timeout" = true)
    (he1 : a1.error = some m1) (ht1 : strIncludes m1 "timeout" = true)
    (he2 : a2.error = some m2) (ht2 : strIncludes m2 "timeout" = true)
    (he3 : a3.error = some m3) (ht3 : strIncludes m3 "timeout" = true)
    (hlen : a0.rows.length + a1.rows.length + a2.rows.length + a3.rows.length ≤ 150000) :
    executeQuery (a0 :: a1 :: a2 :: a3 :: rest) conn0 =
      ⟨.err "InfluxDB query timeout - попробуйте уменьшить временной диапазон или использовать агрегацию",
       [false, false, false, false], [2000, 4000, 6000], false⟩ := by
  unfold executeQuery
  rw [executeQueryLoop_retry_step a0 _ 0 [] conn0 [] [] m0 he0 (timeout_isRetryableMsg ht0)
    (by simp; omega) (by omega)]
  rw [executeQueryLoop_retry_step a1 _ 1 _ false _ _ m1 he1 (timeout_isRetryableMsg ht1)
    (by simp; omega) (by omega)]
  rw [executeQueryLoop_retry_step a2 _ 2 _ false _ _ m2 he2 (timeout_isRetryableMsg ht2)
    (by simp; omega) (by omega)]
  rw [executeQueryLoop_timeout_terminal a3 _ 3 _ false _ _ m3 he3 ht3
    (by simp; omega) (by omega)]
  simp

/-- Witness for c2_timeout_retry at four concrete empty-row timeout
attempts. -/
theorem c2_timeout_retry_witness :
    executeQuery [(⟨[], some "timeout"⟩ : Attempt Nat), ⟨[], some "timeout"⟩,
        ⟨[], some "timeout"⟩, ⟨[], some "timeout"⟩] true =
      ⟨.err "InfluxDB query timeout - попробуйте уменьшить временной диапазон или использовать агрегацию",
       [false, false, false, false], [2000, 4000, 6000], false⟩ :=
  c2_timeout_retry ⟨[], some "timeout"⟩ ⟨[], some "timeout"⟩ ⟨[], some "timeout"⟩
    ⟨[], some "timeout"⟩ [] true "timeout" "timeout" "timeout" "timeout"
    rfl (by decide) rfl (by decide) rfl (by decide) rfl (by decide) (by decide)

/-- C6 counterexample: a single successful attempt streaming 150001 rows
is truncated, yet the buffer returned holds 150001 rows, not 150000:
the check (result.length > 150000) runs after the push, so accumulation
stops only once 150001 rows have been collected. -/
theorem c6_counterexample :
    (executeQuery [(⟨List.replicate 150001 0, none⟩ : Attempt Nat)] true).outcome.rowCount =
        some 150001 ∧
      (executeQuery [(⟨List.replicate 150001 0, none⟩ : Attempt Nat)] true).truncWarned = true := by
  have hlen : 150000 < (List.replicate 150001 (0 : Nat)).length := by
    rw [List.length_replicate]
    omega
  have hp := pushRows_from_nil_big (List.replicate 150001 (0 : Nat)) hlen
  unfold executeQuery
  rw [executeQueryLoop_success_step _ _ _ _ _ _ _ rfl]
  rw [hp]
  refine ⟨?_, rfl⟩
  show some (List.length _) = some 150001
  rw [List.length_take, List.length_replicate, Nat.min_self]

/-- C6 amended: the row buffer of an executeQuery call is bounded at
150001 rows: an attempt streaming more than 150000 rows stops
accumulating once the buffer exceeds 150000 rows (that is, at 150001),
logs the truncation warning, and the call returns the accumulated rows
successfully, regardless of whether the attempt would later have
failed. -/
theorem c6_truncation {α : Type} (l : List α) (err : Option String) (conn0 : Bool)
    (h : 150000 < l.length) :
    executeQuery [⟨l, err⟩] conn0 =
      ⟨.ok (l.take 150001), if conn0 then [] else [true], [], true⟩ := by
  have hp := pushRows_from_nil_big l h
  unfold executeQuery
  cases err with
  | none =>
    rw [executeQueryLoop_success_step _ _ _ _ _ _ _ rfl]
    rw [hp]
    simp
  | some m =>
    simp only [executeQueryLoop, hp]
    simp

/-- Witness for c6_truncation at a concrete list of 150001 rows. -/
theorem c6_truncation_witness :
    executeQuery [(⟨List.replicate 150001 0, none⟩ : Attempt Nat)] true =
        ⟨.ok ((List.replicate 150001 (0 : Nat)).take 150001), if true then [] else [true],
          [], true⟩ ∧
      150000 < (List.replicate 150001 (0 : Nat)).length :=
  ⟨c6_truncation (List.replicate 150001 (0 : Nat)) none true
      (by rw [List.length_replicate]; omega),
    by rw [List.length_replicate]; omega⟩

/-- C10: the row buffer is allocated once per executeQuery call and is
not cleared between retry attempts: when an attempt fails retryably
after streaming some rows and the following retry succeeds, the rows of
the failed attempt are returned before the rows of the successful one. -/
theorem c10_buffer_not_cleared {α : Type} (r1 r2 : List α) (m : String)
    (rest : List (Attempt α)) (conn0 : Bool)
    (hm : isRetryableMsg m = true) (hlen : r1.length + r2.length ≤ 150000) :
    executeQuery (⟨r1, some m⟩ :: ⟨r2, none⟩ :: rest) conn0 =
      ⟨.ok (r1 ++ r2), [false, true], [2000], false⟩ := by
  unfold executeQuery
  rw [executeQueryLoop_retry_step ⟨r1, some m⟩ _ 0 [] conn0 [] [] m rfl hm
    (by simp; omega) (by omega)]
  rw [executeQueryLoop_success_step _ _ _ _ _ _ _ rfl]
  rw [pushRows_no_trunc 150000 _ r2 (by simp; omega)]
  simp

/-- Witness for c10_buffer_not_cleared: one row lost to a timeout
attempt, one row from the successful retry, both returned in order. -/
theorem c10_buffer_not_cleared_witness :
    executeQuery [(⟨[7], some "timeout"⟩ : Attempt Nat), ⟨[8], none⟩] true =
      ⟨.ok [7, 8], [false, true], [2000], false⟩ := by
  have h := c10_buffer_not_cleared [7] [8] "timeout" ([] : List (Attempt Nat)) true
    (by decide) (by decide)
  simpa using h

/-!
TelemetryService.calculateAggregationWindow. Start and end instants are
millisecond timestamps; the elapsed time is converted to hours as an
exact rational (the code uses a JS float division).
-/

structure AggConfig where
  window : String
  isAggregated : Bool
deriving DecidableEq

def calculateAggregationWindow (startMs endMs : Int) : AggConfig :=
  let timeRange : Int := endMs - startMs
  let hours : ℚ := (timeRange : ℚ) / (1000 * 60 * 60)
  if 168 < hours then
    ⟨"|> aggregateWindow(every: 1h, fn: mean, createEmpty: false)", true⟩
  else if 24 < hours then
    ⟨"|> aggregateWindow(every: 15m, fn: mean, createEmpty: false)", true⟩
  else if 6 < hours then
    ⟨"|> aggregateWindow(every: 3m, fn: mean, createEmpty: false)", true⟩
  else
    ⟨"", false⟩

/-- Elapsed hours between two millisecond timestamps. -/
def hoursBetween (startMs endMs : Int) : ℚ := ((endMs - startMs : Int) : ℚ) / (1000 * 60 * 60)

/-- C1: the aggregation window is a pure function of the elapsed hours h
between start and end: more than 168 hours selects the 1-hour mean
window, more than 24 and up to 168 hours the 15-minute mean window,
more than 6 and up to 24 hours the 3-minute mean window, and up to 6
hours selects no aggregation; the result is marked aggregated exactly
when h exceeds 6; and the result depends only on the difference of the
two instants. -/
theorem c1_aggregation_window (startMs endMs : Int) :
    (168 < hoursBetween startMs endMs →
      calculateAggregationWindow startMs endMs =
        ⟨"|> aggregateWindow(every: 1h, fn: mean, createEmpty: false)", true⟩) ∧
    (24 < hoursBetween startMs endMs ∧ hoursBetween startMs endMs ≤ 168 →
      calculateAggregationWindow startMs endMs =
        ⟨"|> aggregateWindow(every: 15m, fn: mean, createEmpty: false)", true⟩) ∧
    (6 < hoursBetween startMs endMs ∧ hoursBetween startMs endMs ≤ 24 →
      calculateAggregationWindow startMs endMs =
        ⟨"|> aggregateWindow(every: 3m, fn: mean, createEmpty: false)", true⟩) ∧
    (hoursBetween startMs endMs ≤ 6 →
      calculateAggregationWindow startMs endMs = ⟨"", false⟩) ∧
    ((calculateAggregationWindow startMs endMs).isAggregated = true ↔
      6 < hoursBetween startMs endMs) ∧
    calculateAggregationWindow startMs endMs =
      calculateAggregationWindow 0 (endMs - startMs) := by
  unfold calculateAggregationWindow hoursBetween
  simp only [Int.sub_zero]
  refine ⟨?_, ?_, ?_, ?_, ?_, trivial⟩
  · intro h
    rw [if_pos h]
  · rintro ⟨h1, h2⟩
    rw [if_neg (by simpa using h2), if_pos h1]
  · rintro ⟨h1, h2⟩
    rw [if_neg (by push_neg; linarith), if_neg (by simpa using h2), if_pos h1]
  · intro h
    rw [if_neg (by push_neg; linarith), if_neg (by push_neg; linarith),
      if_neg (by simpa using h)]
  · by_cases h1 : (168 : ℚ) < ((endMs - startMs : Int) : ℚ) / (1000 * 60 * 60)
    · rw [if_pos h1]
      simp only [true_iff]
      linarith
    · rw [if_neg h1]
      by_cases h2 : (24 : ℚ) < ((endMs - startMs : Int) : ℚ) / (1000 * 60 * 60)
      · rw [if_pos h2]
        simp only [true_iff]
        linarith
      · rw [if_neg h2]
        by_cases h3 : (6 : ℚ) < ((endMs - startMs : Int) : ℚ) / (1000 * 60 * 60)
        · rw [if_pos h3]
          simpa using h3
        · rw [if_neg h3]
          simpa using h3

/-- Witness for c1_aggregation_window: each branch at a concrete span
(169 h, 100 h, 10 h, 3 h in milliseconds). -/
theorem c1_aggregation_window_witness :
    calculateAggregationWindow 0 608400000 =
        ⟨"|> aggregateWindow(every: 1h, fn: mean, createEmpty: false)", true⟩ ∧
      calculateAggregationWindow 0 360000000 =
        ⟨"|> aggregateWindow(every: 15m, fn: mean, createEmpty: false)", true⟩ ∧
      calculateAggregationWindow 0 36000000 =
        ⟨"|> aggregateWindow(every: 3m, fn: mean, createEmpty: false)", true⟩ ∧
      calculateAggregationWindow 0 10800000 = ⟨"", false⟩ :=
  ⟨(c1_aggregation_window 0 608400000).1 (by norm_num [hoursBetween]),
    (c1_aggregation_window 0 360000000).2.1 (by norm_num [hoursBetween]),
    (c1_aggregation_window 0 36000000).2.2.1 (by norm_num [hoursBetween]),
    (c1_aggregation_window 0 10800000).2.2.2.1 (by norm_num [hoursBetween])⟩

/-!
TelemetryService.processResultData. A raw record carries the row's
_time (milliseconds; new Date(..).toISOString() is injective on valid
instants, so the time value itself stands for the normalized string),
its _field, and its parseFloat-ed _value (none models NaN). The data
record is an association list in insertion order, as a JS object with
string keys; the coordinate merge buffer is the coordinates array.
-/

structure RawRecord where
  time : Int
  field : String
  value : Option ℚ
deriving DecidableEq

structure TimeValue where
  time : Int
  value : ℚ
deriving DecidableEq

structure TrackPoint where
  time : Int
  lat : ℚ
  lon : ℚ
  event_time : Int
deriving DecidableEq

structure FuelSensorData where
  data : List TimeValue
  sensorId : String
  unit : String
deriving DecidableEq

structure SeriesData where
  speed : List TimeValue
  main_power_voltage : List TimeValue
deriving DecidableEq

structure DataInfo where
  totalPoints : Nat
  timeRangeStart : String
  timeRangeStop : String
  availableSensors : List String
  aggregationUsed : Bool
deriving DecidableEq

structure TelemetryResponse where
  series : SeriesData
  fuelSensors : List (String × FuelSensorData)
  track : List TrackPoint
  dataInfo : DataInfo
deriving DecidableEq

/- Association-list operations with JS object semantics: lookup of a
   string key, assignment (replace in place or append), and push onto
   the array stored at an existing key. -/

def getKey {β : Type} (m : List (String × β)) (k : String) : Option β :=
  (m.find? (fun e => e.1 = k)).map (fun e => e.2)

def setKey {β : Type} : List (String × β) → String → β → List (String × β)
  | [], k, v => [(k, v)]
  | e :: rest, k, v => if e.1 = k then (k, v) :: rest else e :: setKey rest k v

def pushKey : List (String × List TimeValue) → String → TimeValue → List (String × List TimeValue)
  | [], _, _ => []
  | e :: rest, k, tv => if e.1 = k then (e.1, e.2 ++ [tv]) :: rest else e :: pushKey rest k tv

structure Coord where
  time : Int
  lat : Option ℚ
  lon : Option ℚ
deriving DecidableEq

structure ProcessState where
  data : List (String × List TimeValue)
  coordinates : List Coord
  processedPoints : Nat
  skippedPoints : Nat
deriving DecidableEq

/-- Field-specific value transform applied before the coordinate / data
branch: main_power_voltage is divided by 1000 and rounded to 2
decimals, speed is rounded to 2 decimals and clamped at 0, all other
fields pass through. -/
def transformValue (f : String) (v : ℚ) : ℚ :=
  if f = "main_power_voltage" then (jsRound ((v / 1000) * 100) : ℚ) / 100
  else if f = "speed" then max 0 ((jsRound (v * 100) : ℚ) / 100)
  else v

def setCoordField (isLat : Bool) (v : ℚ) (c : Coord) : Coord :=
  if isLat then { c with lat := some v } else { c with lon := some v }

def updateFirstCoord (t : Int) (isLat : Bool) (v : ℚ) : List Coord → List Coord
  | [] => []
  | c :: rest =>
    if c.time = t then setCoordField isLat v c :: rest
    else c :: updateFirstCoord t isLat v rest

/-- Body of the result.forEach loop of processResultData, processing one
raw record. -/
def processRecord (st : ProcessState) (r : RawRecord) : ProcessState :=
  match r.value with
  | none => { st with skippedPoints := st.skippedPoints + 1 }
  | some v0 =>
    let value := transformValue r.field v0
    if r.field = "latitude" ∨ r.field = "longitude" then
      if value = 0 ∨ value < -180 ∨ 180 < value then st
      else if r.field = "latitude" ∧ (value < -90 ∨ 90 < value) then st
      else if st.coordinates.any (fun c => c.time = r.time) then
        { st with coordinates :=
            updateFirstCoord r.time (r.field = "latitude") value st.coordinates }
      else
        { st with coordinates := st.coordinates ++
            [if r.field = "latitude" then ⟨r.time, some value, none⟩
             else ⟨r.time, none, some value⟩] }
    else if (getKey st.data r.field).isSome then
      { st with
          data := pushKey st.data r.field ⟨r.time, (jsRound (value * 100) : ℚ) / 100⟩,
          processedPoints := st.processedPoints + 1 }
    else st

def baseSeriesFields : List String := ["speed", "main_power_voltage"]

/-- Initial data record: base fields first, then one empty array per
available fuel sensor. -/
def initProcessState (availableFuelSensors : List String) : ProcessState :=
  { data := availableFuelSensors.foldl (fun m s => setKey m s [])
      (baseSeriesFields.foldl (fun m f => setKey m f []) []),
    coordinates := [], processedPoints := 0, skippedPoints := 0 }

/-- The full forEach pass of processResultData over the raw records. -/
def processAll (result : List RawRecord) (availableFuelSensors : List String) : ProcessState :=
  result.foldl processRecord (initProcessState availableFuelSensors)

/-- Validity filter applied to merge-buffer entries before they become
track points. -/
def coordValid (c : Coord) : Bool :=
  match c.lat, c.lon with
  | some la, some lo =>
    decide (la ≠ 0) && decide (lo ≠ 0) && decide (-90 ≤ la) && decide (la ≤ 90) &&
      decide (-180 ≤ lo) && decide (lo ≤ 180)
  | _, _ => false

def mkTrackPoint (c : Coord) : TrackPoint :=
  ⟨c.time, c.lat.getD 0, c.lon.getD 0, Int.fdiv c.time 1000⟩

def processResultData (result : List RawRecord) (start stop : String)
    (availableFuelSensors : List String) (aggregationUsed : Bool) : TelemetryResponse :=
  let st := processAll result availableFuelSensors
  let track := sortByKey (fun p : TrackPoint => p.time)
    ((st.coordinates.filter coordValid).map mkTrackPoint)
  let fuelSensors := availableFuelSensors.foldl (fun acc sensor =>
    let sensorNumber := sensor.replace "fls485_level_" ""
    match getKey st.data sensor with
    | some l =>
      if 0 < l.length then
        setKey acc ("level_" ++ sensorNumber) ⟨l, sensorNumber, "units"⟩
      else acc
    | none => acc) []
  let totalPoints := (st.data.map (fun e => e.2.length)).sum + track.length
  { series := { speed := (getKey st.data "speed").getD [],
                main_power_voltage := (getKey st.data "main_power_voltage").getD [] },
    fuelSensors := fuelSensors,
    track := track,
    dataInfo := { totalPoints := totalPoints, timeRangeStart := start, timeRangeStop := stop,
                  availableSensors := availableFuelSensors,
                  aggregationUsed := aggregationUsed } }

/-- The time-value entry a single raw record contributes to the series
of field f (none when it contributes nothing). -/
def recordEntry (f : String) (r : RawRecord) : Option TimeValue :=
  match r.value with
  | none => none
  | some v =>
    if r.field = f then
      some ⟨r.time, (jsRound (transformValue f v * 100) : ℚ) / 100⟩
    else none

lemma getKey_nil {β : Type} (f : String) : getKey ([] : List (String × β)) f = none := rfl

lemma getKey_cons {β : Type} (e : String × β) (m : List (String × β)) (f : String) :
    getKey (e :: m) f = if e.1 = f then some e.2 else getKey m f := by
  unfold getKey
  by_cases h : e.1 = f <;> simp [List.find?, h]

lemma getKey_setKey {β : Type} (m : List (String × β)) (k : String) (v : β) (f : String) :
    getKey (setKey m k v) f = if f = k then some v else getKey m f := by
  induction m with
  | nil =>
    by_cases h : f = k
    · simp [setKey, getKey_cons, h]
    · have h' : ¬ k = f := fun hc => h hc.symm
      simp [setKey, getKey_cons, h, h', getKey_nil]
  | cons e rest ih =>
    unfold setKey
    by_cases he : e.1 = k
    · rw [if_pos he]
      by_cases h : f = k
      · simp [getKey_cons, h]
      · have h' : ¬ k = f := fun hc => h hc.symm
        have he' : ¬ e.1 = f := fun hc => h (by rw [← hc, he])
        simp [getKey_cons, h, h', he']
    · rw [if_neg he, getKey_cons, ih, getKey_cons]
      by_cases hf : e.1 = f
      · have hfk : ¬ f = k := fun hc => he (by rw [hf, hc])
        simp [hf, hfk]
      · simp [hf]

lemma getKey_pushKey_self (m : List (String × List TimeValue)) (k : String) (tv : TimeValue) :
    getKey (pushKey m k tv) k = (getKey m k).map (fun l => l ++ [tv]) := by
  induction m with
  | nil => simp [pushKey, getKey_nil]
  | cons e rest ih =>
    unfold pushKey
    by_cases he : e.1 = k
    · simp [getKey_cons, he]
    · rw [if_neg he, getKey_cons, getKey_cons, if_neg he, if_neg he, ih]

lemma getKey_pushKey_ne (m : List (String × List TimeValue)) (k : String) (tv : TimeValue)
    (f : String) (h : f ≠ k) :
    getKey (pushKey m k tv) f = getKey m f := by
  induction m with
  | nil => simp [pushKey]
  | cons e rest ih =>
    unfold pushKey
    by_cases he : e.1 = k
    · have hef : ¬ e.1 = f := fun hc => h (by rw [← hc, he])
      rw [if_pos he, getKey_cons, getKey_cons]
      simp only [hef, if_false]
    · rw [if_neg he, getKey_cons, getKey_cons, ih]

lemma getKey_processRecord (f : String) (hf1 : f ≠ "latitude") (hf2 : f ≠ "longitude")
    (st : ProcessState) (r : RawRecord) :
    getKey (processRecord st r).data f =
      (getKey st.data f).map (fun l => l ++ (recordEntry f r).toList) := by
  have hid : (getKey st.data f).map (fun l => l ++ ([] : List TimeValue)) = getKey st.data f := by
    cases getKey st.data f <;> simp
  unfold processRecord recordEntry
  cases hv : r.value with
  | none => simpa using hid.symm
  | some v0 =>
    dsimp only
    by_cases hco : r.field = "latitude" ∨ r.field = "longitude"
    · have hne : r.field ≠ f := by
        rcases hco with h | h
        · rw [h]
          exact fun hc => hf1 hc.symm
        · rw [h]
          exact fun hc => hf2 hc.symm
      rw [if_pos hco]
      split_ifs <;> simpa [hne] using hid.symm
    · rw [if_neg hco]
      by_cases hfld : r.field = f
      · subst hfld
        cases hks : getKey st.data r.field with
        | none => simp [hks]
        | some l => simp [hks, getKey_pushKey_self]
      · have hne : f ≠ r.field := fun hc => hfld hc.symm
        by_cases hks : (getKey st.data r.field).isSome
        · rw [if_pos hks]
          simp only [getKey_pushKey_ne st.data r.field _ f hne]
          simpa [hfld] using hid.symm
        · rw [if_neg hks]
          simpa [hfld] using hid.symm

lemma getKey_foldl_processRecord (f : String) (hf1 : f ≠ "latitude") (hf2 : f ≠ "longitude")
    (rows : List RawRecord) :
    ∀ (st : ProcessState) (l : List TimeValue), getKey st.data f = some l →
      getKey (rows.foldl processRecord st).data f =
        some (l ++ rows.filterMap (recordEntry f)) := by
  induction rows with
  | nil =>
    intro st l h
    simpa using h
  | cons r rest ih =>
    intro st l h
    rw [List.foldl_cons]
    have hstep := getKey_processRecord f hf1 hf2 st r
    rw [h] at hstep
    have := ih (processRecord st r) (l ++ (recordEntry f r).toList) (by simpa using hstep)
    rw [this, List.filterMap_cons]
    cases hre : recordEntry f r <;> simp [List.append_assoc]

lemma getKey_foldl_setKey_nil (l : List String) :
    ∀ (m : List (String × List TimeValue)) (f : String), getKey m f = some [] →
      getKey (l.foldl (fun m s => setKey m s []) m) f = some [] := by
  induction l with
  | nil =>
    intro m f h
    simpa using h
  | cons s rest ih =>
    intro m f h
    rw [List.foldl_cons]
    refine ih _ f ?_
    rw [getKey_setKey]
    by_cases hfs : f = s <;> simp [hfs, h]

lemma getKey_initProcessState (sensors : List String) (f : String)
    (hf : f = "speed" ∨ f = "main_power_voltage") :
    getKey (initProcessState sensors).data f = some [] := by
  unfold initProcessState
  refine getKey_foldl_setKey_nil sensors _ f ?_
  rcases hf with h | h <;> subst h <;> rfl

lemma series_of_processAll (f : String) (hf1 : f ≠ "latitude") (hf2 : f ≠ "longitude")
    (hf : f = "speed" ∨ f = "main_power_voltage")
    (rows : List RawRecord) (sensors : List String) :
    getKey (processAll rows sensors).data f = some (rows.filterMap (recordEntry f)) := by
  unfold processAll
  have := getKey_foldl_processRecord f hf1 hf2 rows (initProcessState sensors) []
    (getKey_initProcessState sensors f hf)
  simpa using this

lemma jsRound_mul_div_cancel (n : ℤ) :
    (jsRound ((n : ℚ) / 100 * 100) : ℚ) / 100 = (n : ℚ) / 100 := by
  have h : ((n : ℚ) / 100 * 100) = (n : ℚ) := by
    field_simp
  rw [h, jsRound_intCast]

lemma stored_voltage (v : ℚ) :
    (jsRound (transformValue "main_power_voltage" v * 100) : ℚ) / 100 =
      (jsRound ((v / 1000) * 100) : ℚ) / 100 := by
  have ht : transformValue "main_power_voltage" v =
      (jsRound ((v / 1000) * 100) : ℚ) / 100 := by
    simp [transformValue]
  rw [ht, jsRound_mul_div_cancel]

lemma stored_speed (v : ℚ) :
    (jsRound (transformValue "speed" v * 100) : ℚ) / 100 =
      max 0 ((jsRound (v * 100) : ℚ) / 100) := by
  have ht : transformValue "speed" v = max 0 ((jsRound (v * 100) : ℚ) / 100) := by
    simp [transformValue]
  rw [ht]
  rcases le_or_lt 0 ((jsRound (v * 100) : ℚ)) with h | h
  · have hmax : max 0 ((jsRound (v * 100) : ℚ) / 100) = (jsRound (v * 100) : ℚ) / 100 :=
      max_eq_right (div_nonneg h (by norm_num))
    rw [hmax, jsRound_mul_div_cancel]
  · have hmax : max 0 ((jsRound (v * 100) : ℚ) / 100) = 0 :=
      max_eq_left (le_of_lt (div_neg_of_neg_of_pos h (by norm_num)))
    rw [hmax]
    norm_num [jsRound_zero]

/-- C8: every main_power_voltage record whose value parses contributes
to the voltage series, in order, the raw value divided by 1000 and
rounded to 2 decimal places; and a raw value of 12345 millivolts
transforms to 12.35 volts. -/
theorem c8_voltage_transform :
    (∀ (rows : List RawRecord) (start stop : String) (sensors : List String) (agg : Bool),
      (processResultData rows start stop sensors agg).series.main_power_voltage =
        rows.filterMap (fun r =>
          match r.value with
          | none => none
          | some v =>
            if r.field = "main_power_voltage" then
              some ⟨r.time, (jsRound ((v / 1000) * 100) : ℚ) / 100⟩
            else none)) ∧
    (jsRound (((12345 : ℚ) / 1000) * 100) : ℚ) / 100 = 12.35 := by
  constructor
  · intro rows start stop sensors agg
    have hser : (processResultData rows start stop sensors agg).series.main_power_voltage =
        (getKey (processAll rows sensors).data "main_power_voltage").getD [] := rfl
    rw [hser, series_of_processAll "main_power_voltage" (by decide) (by decide)
      (Or.inr rfl) rows sensors]
    have hfun : ∀ r : RawRecord, recordEntry "main_power_voltage" r =
        (match r.value with
         | none => none
         | some v =>
           if r.field = "main_power_voltage" then
             some ⟨r.time, (jsRound ((v / 1000) * 100) : ℚ) / 100⟩
           else none : Option TimeValue) := by
      intro r
      unfold recordEntry
      cases r.value with
      | none => rfl
      | some v =>
        by_cases hf : r.field = "main_power_voltage"
        · simp [hf, stored_voltage]
        · simp [hf]
    have : rows.filterMap (recordEntry "main_power_voltage") =
        rows.filterMap (fun r =>
          match r.value with
          | none => none
          | some v =>
            if r.field = "main_power_voltage" then
              some ⟨r.time, (jsRound ((v / 1000) * 100) : ℚ) / 100⟩
            else none) := by
      rw [funext hfun]
    rw [this]
    simp
  · norm_num [jsRound]

/-- C9: every speed record whose value parses contributes to the speed
series, in order (it is retained, not dropped), the raw value rounded
to 2 decimal places and clamped at 0; and a raw value of -3.2
transforms to 0. -/
theorem c9_speed_transform :
    (∀ (rows : List RawRecord) (start stop : String) (sensors : List String) (agg : Bool),
      (processResultData rows start stop sensors agg).series.speed =
        rows.filterMap (fun r =>
          match r.value with
          | none => none
          | some v =>
            if r.field = "speed" then
              some ⟨r.time, max 0 ((jsRound (v * 100) : ℚ) / 100)⟩
            else none)) ∧
    max 0 ((jsRound ((-3.2 : ℚ) * 100) : ℚ) / 100) = 0 := by
  constructor
  · intro rows start stop sensors agg
    have hser : (processResultData rows start stop sensors agg).series.speed =
        (getKey (processAll rows sensors).data "speed").getD [] := rfl
    rw [hser, series_of_processAll "speed" (by decide) (by decide) (Or.inl rfl) rows sensors]
    have hfun : ∀ r : RawRecord, recordEntry "speed" r =
        (match r.value with
         | none => none
         | some v =>
           if r.field = "speed" then
             some ⟨r.time, max 0 ((jsRound (v * 100) : ℚ) / 100)⟩
           else none : Option TimeValue) := by
      intro r
      unfold recordEntry
      cases r.value with
      | none => rfl
      | some v =>
        by_cases hf : r.field = "speed"
        · simp [hf, stored_speed]
        · simp [hf]
    have : rows.filterMap (recordEntry "speed") =
        rows.filterMap (fun r =>
          match r.value with
          | none => none
          | some v =>
            if r.field = "speed" then
              some ⟨r.time, max 0 ((jsRound (v * 100) : ℚ) / 100)⟩
            else none) := by
      rw [funext hfun]
    rw [this]
    simp
  · norm_num [jsRound]

lemma coordValid_iff (c : Coord) :
    coordValid c = true ↔ ∃ la lo : ℚ, c.lat = some la ∧ c.lon = some lo ∧
      la ≠ 0 ∧ lo ≠ 0 ∧ -90 ≤ la ∧ la ≤ 90 ∧ -180 ≤ lo ∧ lo ≤ 180 := by
  unfold coordValid
  cases hla : c.lat with
  | none => simp
  | some la =>
    cases hlo : c.lon with
    | none => simp
    | some lo =>
      simp only [Bool.and_eq_true, decide_eq_true_eq, Option.some.injEq]
      constructor
      · rintro ⟨⟨⟨⟨⟨h1, h2⟩, h3⟩, h4⟩, h5⟩, h6⟩
        exact ⟨la, lo, rfl, rfl, h1, h2, h3, h4, h5, h6⟩
      · rintro ⟨la', lo', hla', hlo', h1, h2, h3, h4, h5, h6⟩
        subst hla'
        subst hlo'
        exact ⟨⟨⟨⟨⟨h1, h2⟩, h3⟩, h4⟩, h5⟩, h6⟩

/-- C5: for every input, the track is sorted ascending by timestamp
(whatever the arrival order of the rows), and it contains exactly the
merge-buffer coordinate entries that carry both a latitude and a
longitude at the same timestamp, with latitude in [-90, 90], longitude
in [-180, 180], and neither exactly 0; in particular the pair
(lat = 0, lon = 55) contributes no track point at all. -/
theorem c5_track_points :
    (∀ (rows : List RawRecord) (start stop : String) (sensors : List String) (agg : Bool),
      List.Pairwise (fun a b : TrackPoint => a.time ≤ b.time)
          (processResultData rows start stop sensors agg).track ∧
        ∀ p : TrackPoint, p ∈ (processResultData rows start stop sensors agg).track ↔
          ∃ c ∈ (processAll rows sensors).coordinates, ∃ la lo : ℚ,
            c.lat = some la ∧ c.lon = some lo ∧ la ≠ 0 ∧ lo ≠ 0 ∧
            -90 ≤ la ∧ la ≤ 90 ∧ -180 ≤ lo ∧ lo ≤ 180 ∧
            p = ⟨c.time, la, lo, Int.fdiv c.time 1000⟩) ∧
    (processResultData [⟨0, "latitude", some 0⟩, ⟨0, "longitude", some 55⟩]
      "" "" [] false).track = [] := by
  have htrack : ∀ (rows : List RawRecord) (start stop : String) (sensors : List String)
      (agg : Bool),
      (processResultData rows start stop sensors agg).track =
        sortByKey (fun p : TrackPoint => p.time)
          (((processAll rows sensors).coordinates.filter coordValid).map mkTrackPoint) :=
    fun _ _ _ _ _ => rfl
  constructor
  · intro rows start stop sensors agg
    constructor
    · rw [htrack]
      exact pairwise_sortByKey _ _
    · intro p
      rw [htrack, mem_sortByKey, List.mem_map]
      constructor
      · rintro ⟨c, hc, rfl⟩
        rw [List.mem_filter] at hc
        obtain ⟨hcmem, hcv⟩ := hc
        obtain ⟨la, lo, hla, hlo, h1, h2, h3, h4, h5, h6⟩ := (coordValid_iff c).mp hcv
        refine ⟨c, hcmem, la, lo, hla, hlo, h1, h2, h3, h4, h5, h6, ?_⟩
        simp [mkTrackPoint, hla, hlo]
      · rintro ⟨c, hcmem, la, lo, hla, hlo, h1, h2, h3, h4, h5, h6, rfl⟩
        refine ⟨c, List.mem_filter.mpr ⟨hcmem,
          (coordValid_iff c).mpr ⟨la, lo, hla, hlo, h1, h2, h3, h4, h5, h6⟩⟩, ?_⟩
        simp [mkTrackPoint, hla, hlo]
  · have hpa : (processAll [⟨0, "latitude", some 0⟩, ⟨0, "longitude", some 55⟩]
        []).coordinates = [⟨0, none, some 55⟩] := rfl
    rw [htrack, hpa]
    rfl

/-!
TelemetryService.getImeis and its fallback getImeisAlternative. A row of
the identifier query carries an optional imei tag value and an optional
_value column (none models undefined or a non-string value, which the
filters reject). JS String.prototype.trim is modelled on the character
list.
-/

/-- JS String.prototype.trim: strips leading and trailing whitespace. -/
def jsTrim (s : String) : String :=
  String.mk (((s.toList.dropWhile Char.isWhitespace).reverse.dropWhile
    Char.isWhitespace).reverse)

structure ImeiRow where
  imei : Option String
  value : Option String
deriving DecidableEq

/-- The expression row.imei or-else row._value with JS truthiness: an
empty imei string falls through to the _value column. -/
def pickImei (r : ImeiRow) : Option String :=
  match r.imei with
  | some s => if s = "" then r.value else some s
  | none => r.value

def getImeisAlternative (rows : List ImeiRow) : List String :=
  let imeis := ((rows.filterMap (fun r => r.imei)).filter
      (fun s => !(s == "") && !(jsTrim s == ""))).map jsTrim
  sortByKey (fun s : String => s) (jsSetDedup imeis)

def getImeis (primaryRows fallbackRows : List ImeiRow) : List String :=
  let imeis := ((primaryRows.filterMap pickImei).filter
      (fun s => !(s == "") && !(jsTrim s == "") && decide (5 < s.length))).map jsTrim
  let uniqueImeis := sortByKey (fun s : String => s) (jsSetDedup imeis)
  if uniqueImeis.isEmpty then getImeisAlternative fallbackRows else uniqueImeis

lemma sorted_dedup_props (l : List String) :
    List.Pairwise (fun a b : String => a ≤ b)
        (sortByKey (fun s : String => s) (jsSetDedup l)) ∧
      (sortByKey (fun s : String => s) (jsSetDedup l)).Nodup ∧
      ∀ s, s ∈ sortByKey (fun s : String => s) (jsSetDedup l) ↔ s ∈ l := by
  refine ⟨pairwise_sortByKey _ _, ?_, ?_⟩
  · exact ((perm_sortByKey (fun s : String => s) (jsSetDedup l)).nodup_iff).mpr
      (jsSetDedup_nodup l)
  · intro s
    rw [mem_sortByKey, mem_jsSetDedup]

/-- C7 counterexample: when the primary identifier query yields nothing,
the fallback path returns strings with no length check: a 3-character
imei tag is returned as is. -/
theorem c7_counterexample :
    getImeis [] [⟨some "abc", none⟩] = ["abc"] ∧ ¬ 5 < ("abc" : String).length := by
  have htrim : jsTrim "abc" = "abc" := by decide
  constructor
  · have h1 : getImeis [] [⟨some "abc", none⟩] = getImeisAlternative [⟨some "abc", none⟩] := by
      unfold getImeis
      simp [jsSetDedup, sortByKey]
    rw [h1]
    unfold getImeisAlternative
    have hfm : ([⟨some "abc", none⟩] : List ImeiRow).filterMap (fun r => r.imei) = ["abc"] := by
      decide
    rw [hfm]
    have hflt : (["abc"].filter (fun s => !(s == "") && !(jsTrim s == ""))) = ["abc"] := by
      decide
    rw [hflt]
    have hmap : (["abc"].map jsTrim) = ["abc"] := by
      decide
    rw [hmap]
    simp [jsSetDedup, sortByKey, insertByKey]
  · decide

/-- C7 amended: the identifier list returned by getImeis (either path)
is deduplicated, sorted lexicographically ascending, and every returned
string is nonempty after trimming; the length > 5 filter applies only
on the primary path (and there to the untrimmed raw string), so the
fallback can return identifiers of length 5 or less. -/
theorem c7_imeis (primaryRows fallbackRows : List ImeiRow) :
    List.Pairwise (fun a b : String => a ≤ b) (getImeis primaryRows fallbackRows) ∧
      (getImeis primaryRows fallbackRows).Nodup ∧
      ∀ s ∈ getImeis primaryRows fallbackRows, s ≠ "" := by
  have hui : getImeis primaryRows fallbackRows =
      if (sortByKey (fun s : String => s) (jsSetDedup
          (((primaryRows.filterMap pickImei).filter
            (fun s => !(s == "") && !(jsTrim s == "") && decide (5 < s.length))).map
              jsTrim))).isEmpty
      then getImeisAlternative fallbackRows
      else sortByKey (fun s : String => s) (jsSetDedup
        (((primaryRows.filterMap pickImei).filter
          (fun s => !(s == "") && !(jsTrim s == "") && decide (5 < s.length))).map
            jsTrim)) := rfl
  rw [hui]
  split
  · unfold getImeisAlternative
    refine ⟨(sorted_dedup_props _).1, (sorted_dedup_props _).2.1, ?_⟩
    intro s hs
    rw [(sorted_dedup_props _).2.2] at hs
    obtain ⟨t, ht, rfl⟩ := List.mem_map.mp hs
    obtain ⟨_, hp⟩ := List.mem_filter.mp ht
    rw [Bool.and_eq_true] at hp
    have h2 := hp.2
    rw [Bool.not_eq_true', beq_eq_false_iff_ne] at h2
    exact h2
  · refine ⟨(sorted_dedup_props _).1, (sorted_dedup_props _).2.1, ?_⟩
    intro s hs
    rw [(sorted_dedup_props _).2.2] at hs
    obtain ⟨t, ht, rfl⟩ := List.mem_map.mp hs
    obtain ⟨_, hp⟩ := List.mem_filter.mp ht
    rw [Bool.and_eq_true, Bool.and_eq_true] at hp
    have h2 := hp.1.2
    rw [Bool.not_eq_true', beq_eq_false_iff_ne] at h2
    exact h2

/-- Witness for c7_imeis at a concrete fallback row. -/
theorem c7_imeis_witness :
    List.Pairwise (fun a b : String => a ≤ b) (getImeis [] [⟨some "abc", none⟩]) ∧
      ("abc" ∈ getImeis [] [⟨some "abc", none⟩] → "abc" ≠ "") :=
  ⟨(c7_imeis [] [⟨some "abc", none⟩]).1,
    fun h => (c7_imeis [] [⟨some "abc", none⟩]).2.2 "abc" h⟩

/-!
TelemetryService.getTelemetryData. The store is an environment of query
results: the rows of the two availability probes, the fuel-sensor and
field discovery values, and the main query rows. The returned query tag
list records which store queries the call issued, in order. Dates
arrive both as the raw strings and as their parsed millisecond values
(none models an invalid date, whose Date.getTime() is NaN). The
availability check's dataRange and estimatedPoints only feed log
warnings and are not modelled.
-/

inductive BackendError where
  | badRequest (msg : String)
  | internal (msg : String)
deriving DecidableEq

inductive QueryTag where
  | imeiCheck
  | availabilityScan
  | fuelSensorScan
  | fieldScan
  | mainQuery
deriving DecidableEq

structure TelemetryEnv where
  imeiCheckRows : List RawRecord
  availabilityRows : List RawRecord
  fuelSensorRows : List String
  fieldRows : List String
  mainRows : List RawRecord

/-- TelemetryService.getFields result pipeline over the discovered field
strings. -/
def getFields (env : TelemetryEnv) : List String :=
  sortByKey (fun s : String => s) (jsSetDedup
    ((env.fieldRows.filter (fun s => !(s == "") && !(jsTrim s == ""))).map jsTrim))

def getAvailableFuelSensors (env : TelemetryEnv) : List QueryTag × List String :=
  let sensors := sortByKey (fun s : String => s) (jsSetDedup
    ((env.fuelSensorRows.filter (fun s => strIncludes s "fls485_level_")).map jsTrim))
  if sensors.isEmpty then
    ([.fuelSensorScan, .fieldScan],
      (getFields env).filter (fun s => strIncludes s "fls485_level_"))
  else ([.fuelSensorScan], sensors)

/-- checkDataAvailability: the imei probe, then the range scan; hasData
and the distinct available fields. -/
def checkDataAvailability (env : TelemetryEnv) : List QueryTag × Bool × List String :=
  if env.imeiCheckRows.isEmpty then ([.imeiCheck], false, [])
  else if env.availabilityRows.isEmpty then ([.imeiCheck, .availabilityScan], false, [])
  else ([.imeiCheck, .availabilityScan], true,
    jsSetDedup (env.availabilityRows.map (fun r => r.field)))

def createEmptyResponse (start stop : String) (availableSensors : List String) :
    TelemetryResponse :=
  { series := ⟨[], []⟩, fuelSensors := [], track := [],
    dataInfo := ⟨0, start, stop, availableSensors, false⟩ }

def getTelemetryData (imei startStr endStr : String) (startMs endMs : Option Int)
    (env : TelemetryEnv) : List QueryTag × Except BackendError TelemetryResponse :=
  if imei = "" ∨ startStr = "" ∨ endStr = "" then
    ([], .error (.badRequest "IMEI, start, and end dates are required"))
  else
    match startMs, endMs with
    | some s, some e =>
      if e ≤ s then ([], .error (.badRequest "Start date must be before end date"))
      else if 60 < ((e - s : Int) : ℚ) / (1000 * 60 * 60 * 24) then
        ([], .error (.badRequest "Maximum time range is 60 days. Please use a smaller range."))
      else
        let dc := checkDataAvailability env
        if !dc.2.1 then (dc.1, .ok (createEmptyResponse startStr endStr []))
        else
          let fs := getAvailableFuelSensors env
          let agg := calculateAggregationWindow s e
          if env.mainRows.isEmpty then
            (dc.1 ++ fs.1 ++ [.mainQuery], .ok (createEmptyResponse startStr endStr fs.2))
          else
            (dc.1 ++ fs.1 ++ [.mainQuery],
              .ok (processResultData env.mainRows startStr endStr fs.2 agg.isAggregated))
    | _, _ => ([], .error (.badRequest "Invalid date format. Use ISO 8601 format."))

/-- C4: a telemetry request whose parsed dates satisfy start >= end, or
whose span exceeds 60 days, fails with a BadRequest error and issues no
store query at all: no availability probe, no discovery, no main
query. -/
theorem c4_invalid_range (imei startStr endStr : String) (s e : Int) (env : TelemetryEnv)
    (h1 : imei ≠ "") (h2 : startStr ≠ "") (h3 : endStr ≠ "")
    (h4 : e ≤ s ∨ 60 < ((e - s : Int) : ℚ) / (1000 * 60 * 60 * 24)) :
    ∃ msg, getTelemetryData imei startStr endStr (some s) (some e) env =
      ([], .error (.badRequest msg)) := by
  unfold getTelemetryData
  rw [if_neg (by push_neg; exact ⟨h1, h2, h3⟩)]
  dsimp only
  by_cases he : e ≤ s
  · exact ⟨_, by rw [if_pos he]⟩
  · rcases h4 with h | h
    · exact absurd h he
    · exact ⟨_, by rw [if_neg he, if_pos h]⟩

/-- Witness for c4_invalid_range at a concrete degenerate range. -/
theorem c4_invalid_range_witness :
    ∃ msg, getTelemetryData "12345678" "a" "b" (some 0) (some 0) ⟨[], [], [], [], []⟩ =
      ([], .error (.badRequest msg)) :=
  c4_invalid_range "12345678" "a" "b" 0 0 ⟨[], [], [], [], []⟩
    (by decide) (by decide) (by decide) (Or.inl le_rfl)

/-!
TelemetryService.getRecommendedTimeRange, over the timestamps returned
by its 30-day query. The source field named end is modelled as stop.
-/

structure RecommendedRange where
  start : Int
  stop : Int
  dataPointsCount : Nat
deriving DecidableEq

def getRecommendedTimeRange (times : List Int) : Option RecommendedRange :=
  if times.isEmpty then none
  else
    let sorted := sortByKey (fun t : Int => t) times
    let latestTime := sorted.getLastD 0
    let twelveHoursAgo := latestTime - 12 * 60 * 60 * 1000
    let recentTimes := sorted.filter (fun t => decide (twelveHoursAgo ≤ t))
    if recentTimes.isEmpty then
      let dayAgo := latestTime - 24 * 60 * 60 * 1000
      let dayTimes := sorted.filter (fun t => decide (dayAgo ≤ t))
      some { start := if dayTimes.isEmpty then sorted.getD (times.length - 1000) 0
               else dayTimes.headD 0,
             stop := latestTime,
             dataPointsCount := if dayTimes.isEmpty then min 1000 times.length
               else dayTimes.length }
    else
      some { start := recentTimes.headD 0, stop := latestTime,
             dataPointsCount := recentTimes.length }

lemma sorted_last_max :
    ∀ (l : List Int), l ≠ [] → List.Pairwise (fun a b : Int => a ≤ b) l →
      l.getLastD 0 ∈ l ∧ ∀ x ∈ l, x ≤ l.getLastD 0 := by
  intro l
  induction l with
  | nil => intro h; exact absurd rfl h
  | cons a as ih =>
    intro _ h
    cases as with
    | nil => simp
    | cons b bs =>
      have hlast : (a :: b :: bs).getLastD 0 = (b :: bs).getLastD 0 := by
        rw [List.getLastD_eq_getLast?, List.getLastD_eq_getLast?, List.getLast?_cons_cons]
      obtain ⟨ha, htail⟩ := List.pairwise_cons.mp h
      obtain ⟨hmem, hmax⟩ := ih (by simp) htail
      rw [hlast]
      refine ⟨List.mem_cons_of_mem a hmem, ?_⟩
      intro x hx
      rcases List.mem_cons.mp hx with rfl | hx
      · exact ha _ hmem
      · exact hmax x hx

lemma sorted_head_min (l : List Int) (hne : l ≠ [])
    (h : List.Pairwise (fun a b : Int => a ≤ b) l) :
    l.headD 0 ∈ l ∧ ∀ x ∈ l, l.headD 0 ≤ x := by
  cases l with
  | nil => exact absurd rfl hne
  | cons a as =>
    simp only [List.headD_cons]
    refine ⟨List.mem_cons_self a as, ?_⟩
    intro x hx
    rcases List.mem_cons.mp hx with rfl | hx
    · exact le_refl x
    · exact (List.pairwise_cons.mp h).1 x hx

/-- C3 counterexample: a device whose samples other than the latest are
all older than 24 hours before the latest sample T (here T - 25 h and
T) still takes the 12-hour branch, because T itself always lies within
[T - 12 h, T]: the recommended start is T, not the earliest of the last
1000 samples. -/
theorem c3_counterexample :
    getRecommendedTimeRange [0, 90000000] = some ⟨90000000, 90000000, 1⟩ ∧
      getRecommendedTimeRange [0, 90000000] ≠ some ⟨0, 90000000, 2⟩ := by
  have h : getRecommendedTimeRange [0, 90000000] = some ⟨90000000, 90000000, 1⟩ := by decide
  exact ⟨h, by rw [h]; decide⟩

lemma getRecommendedTimeRange_eq (times : List Int) (hne : times ≠ []) :
    getRecommendedTimeRange times =
      some { start := ((sortByKey (fun t : Int => t) times).filter
               (fun t => decide ((sortByKey (fun t : Int => t) times).getLastD 0 -
                 12 * 60 * 60 * 1000 ≤ t))).headD 0,
             stop := (sortByKey (fun t : Int => t) times).getLastD 0,
             dataPointsCount := ((sortByKey (fun t : Int => t) times).filter
               (fun t => decide ((sortByKey (fun t : Int => t) times).getLastD 0 -
                 12 * 60 * 60 * 1000 ≤ t))).length } := by
  have hne' : times.isEmpty = false := by
    cases times with
    | nil => exact absurd rfl hne
    | cons a as => rfl
  have hperm := perm_sortByKey (fun t : Int => t) times
  have hpw := pairwise_sortByKey (fun t : Int => t) times
  have hsne : sortByKey (fun t : Int => t) times ≠ [] := by
    intro hnil
    rw [hnil] at hperm
    exact hne (List.Perm.eq_nil hperm.symm)
  obtain ⟨hMmem, _⟩ := sorted_last_max _ hsne hpw
  have hMrec : (sortByKey (fun t : Int => t) times).getLastD 0 ∈
      (sortByKey (fun t : Int => t) times).filter
        (fun t => decide ((sortByKey (fun t : Int => t) times).getLastD 0 -
          12 * 60 * 60 * 1000 ≤ t)) := by
    refine List.mem_filter.mpr ⟨hMmem, ?_⟩
    simp only [decide_eq_true_eq]
    omega
  have hrne : ¬ ((sortByKey (fun t : Int => t) times).filter
      (fun t => decide ((sortByKey (fun t : Int => t) times).getLastD 0 -
        12 * 60 * 60 * 1000 ≤ t))).isEmpty = true := by
    intro hcontra
    exact List.ne_nil_of_mem hMrec (List.isEmpty_iff.mp hcontra)
  unfold getRecommendedTimeRange
  rw [if_neg (show ¬ times.isEmpty = true by rw [hne']; exact Bool.false_ne_true)]
  dsimp only
  rw [if_neg hrne]

/-- C3 amended: the recommended window always comes from the 12-hour
branch. With no samples the result is null; otherwise, letting M be the
latest timestamp, the window is [earliest sample within 12 hours of M,
M] with the count of samples in that window: since M itself always lies
in [M - 12 h, M], the set of recent samples is never empty and the
24-hour widening and last-1000-samples fallbacks are unreachable. -/
theorem c3_recommended_range :
    getRecommendedTimeRange [] = none ∧
    ∀ times : List Int, times ≠ [] →
      ∃ M, M ∈ times ∧ (∀ t ∈ times, t ≤ M) ∧
      ∃ s0, s0 ∈ times ∧ M - 12 * 60 * 60 * 1000 ≤ s0 ∧
        (∀ t ∈ times, M - 12 * 60 * 60 * 1000 ≤ t → s0 ≤ t) ∧
        getRecommendedTimeRange times =
          some ⟨s0, M, (times.filter
            (fun t => decide (M - 12 * 60 * 60 * 1000 ≤ t))).length⟩ := by
  refine ⟨rfl, ?_⟩
  intro times hne
  have hperm := perm_sortByKey (fun t : Int => t) times
  have hpw := pairwise_sortByKey (fun t : Int => t) times
  have hsne : sortByKey (fun t : Int => t) times ≠ [] := by
    intro hnil
    rw [hnil] at hperm
    exact hne (List.Perm.eq_nil hperm.symm)
  obtain ⟨hMmem, hMmax⟩ := sorted_last_max _ hsne hpw
  set M := (sortByKey (fun t : Int => t) times).getLastD 0 with hM
  have hMrec : M ∈ (sortByKey (fun t : Int => t) times).filter
      (fun t => decide (M - 12 * 60 * 60 * 1000 ≤ t)) := by
    refine List.mem_filter.mpr ⟨hMmem, ?_⟩
    simp only [decide_eq_true_eq]
    omega
  have hrne := List.ne_nil_of_mem hMrec
  have hrpw := hpw.filter (fun t => decide (M - 12 * 60 * 60 * 1000 ≤ t))
  obtain ⟨hsmem0, hsmin0⟩ := sorted_head_min _ hrne hrpw
  have hs_in_sorted := (List.mem_filter.mp hsmem0).1
  have hs_cut : M - 12 * 60 * 60 * 1000 ≤
      ((sortByKey (fun t : Int => t) times).filter
        (fun t => decide (M - 12 * 60 * 60 * 1000 ≤ t))).headD 0 := by
    have h2 := (List.mem_filter.mp hsmem0).2
    simpa using h2
  refine ⟨M, hperm.mem_iff.mp hMmem, fun t ht => hMmax t (hperm.mem_iff.mpr ht),
    ((sortByKey (fun t : Int => t) times).filter
      (fun t => decide (M - 12 * 60 * 60 * 1000 ≤ t))).headD 0,
    hperm.mem_iff.mp hs_in_sorted, hs_cut, ?_, ?_⟩
  · intro t ht hcut
    refine hsmin0 t (List.mem_filter.mpr ⟨hperm.mem_iff.mpr ht, ?_⟩)
    simpa using hcut
  · rw [getRecommendedTimeRange_eq times hne, ← hM]
    have hpf := hperm.filter (fun t => decide (M - 12 * 60 * 60 * 1000 ≤ t))
    rw [hpf.length_eq]

/-- Witness for c3_recommended_range at the two-sample device of the
counterexample. -/
theorem c3_recommended_range_witness :
    ∃ M, M ∈ [(0 : Int), 90000000] ∧ (∀ t ∈ [(0 : Int), 90000000], t ≤ M) ∧
      ∃ s0, s0 ∈ [(0 : Int), 90000000] ∧ M - 12 * 60 * 60 * 1000 ≤ s0 ∧
        (∀ t ∈ [(0 : Int), 90000000], M - 12 * 60 * 60 * 1000 ≤ t → s0 ≤ t) ∧
        getRecommendedTimeRange [0, 90000000] =
          some ⟨s0, M, (([(0 : Int), 90000000]).filter
            (fun t => decide (M - 12 * 60 * 60 * 1000 ≤ t))).length⟩ :=
  c3_recommended_range.2 [0, 90000000] (by decide)

end InfluxBackend
